import Mathlib

/-!
Shallow embedding of the botc_tokens core (helpers/printable.py,
helpers/text_tools.py, helpers/token_creation.py) and verification of the
specification claims about it.

Python floats are modelled as exact rationals; the single irrational value
used by the code, the double returned by `math.sqrt(3)`, is passed in as an
explicit rational parameter `sqrt3` (the actual double lies strictly between
1 and 2, and every theorem that depends on it is proved for the whole range
that the double can occupy).  Python `int()` truncation toward zero is
modelled by `pyInt`.
-/

namespace Botc

/-- Python `int()` applied to a float: truncation toward zero. -/
def pyInt (q : ℚ) : ℤ := if q < 0 then ⌈q⌉ else ⌊q⌋

/-- A committed placement: (left, top) passed to `composite`, and the
width/height of the image that was actually composited there. -/
abbrev Placement := ℤ × ℤ × ℕ × ℕ

/-- State of `Printable` (helpers/printable.py).  Pages are modelled by the
list of placements composited onto them; `pages` is `document.sequence`,
`current_page` is the open page `self.page`. -/
structure Printable where
  page_width : ℚ
  page_height : ℚ
  padding : ℚ
  diameter : Option ℚ
  current_x : ℚ
  current_y : ℚ
  next_row_should_be_inset : Bool
  pages : List (List Placement)
  current_page : List Placement
  page_number : ℕ
deriving DecidableEq, Repr

namespace Printable

/-- `Printable.__init__`: the constructor sets the cursor to the origin and
then calls `save_page()`, which (cursor at origin) commits nothing and just
creates the first blank page. -/
def init (page_width page_height padding : ℚ) (diameter : Option ℚ) : Printable :=
  { page_width := page_width, page_height := page_height, padding := padding
    diameter := diameter, current_x := 0, current_y := 0
    next_row_should_be_inset := false, pages := [], current_page := []
    page_number := 1 }

/-- `Printable.save_page`: commit the current page only if the cursor moved
from the origin, then start a fresh blank page (in the source the fresh
`Image` is created unconditionally, discarding the old `self.page` object
even when nothing was committed). -/
def save_page (p : Printable) : Printable :=
  if ¬(p.current_x = 0 ∧ p.current_y = 0) then
    { p with pages := p.pages ++ [p.current_page], current_x := 0, current_y := 0
             page_number := p.page_number + 1, next_row_should_be_inset := false
             current_page := [] }
  else
    { p with current_page := [] }

/-- `Printable.write`: commit the last page if it has content, then save the
document only when `document.sequence` is non-empty.  The second component is
the file written (`some` of the committed pages) or `none` when no file is
produced. -/
def write (p : Printable) : Printable × Option (List (List Placement)) :=
  let q := if p.current_x ≠ 0 ∨ p.current_y ≠ 0 then p.save_page else p
  (q, if q.pages = [] then none else some q.pages)

/-- `Printable.add_token`: establish the diameter from the first token if it
was not fixed, composite the token at the current cursor, advance, and wrap
or paginate.  In the source the `token.resize` happens strictly after the
`composite` call and the resized handle is discarded at the end of the
`with` block, so the placement always records the token's original
dimensions `(w, h)`. -/
def add_token (sqrt3 : ℚ) (p : Printable) (w h : ℕ) : Printable :=
  let d : ℚ := p.diameter.getD (if w > h then (w : ℚ) else (h : ℚ))
  let p1 : Printable :=
    { p with diameter := some d
             current_page := p.current_page ++ [(pyInt p.current_x, pyInt p.current_y, w, h)]
             current_x := p.current_x + d + p.padding }
  if p1.current_x + d > p1.page_width then
    let p2 : Printable :=
      { p1 with
        current_x := if p1.next_row_should_be_inset then 0 else d * (1/2) + p1.padding
        next_row_should_be_inset := !p1.next_row_should_be_inset
        current_y := p1.current_y + (⌊d / 2⌋ : ℚ) * sqrt3 + p1.padding }
    if p2.current_y + d > p2.page_height then p2.save_page else p2
  else p1

/-- Adding a list of tokens in order. -/
def addTokens (sqrt3 : ℚ) (p : Printable) (ts : List (ℕ × ℕ)) : Printable :=
  ts.foldl (fun q t => q.add_token sqrt3 t.1 t.2) p

theorem addTokens_append (s : ℚ) (p : Printable) (ts us : List (ℕ × ℕ)) :
    p.addTokens s (ts ++ us) = (p.addTokens s ts).addTokens s us :=
  List.foldl_append _ _ _ _

theorem save_page_diameter (p : Printable) : p.save_page.diameter = p.diameter := by
  unfold save_page; split <;> rfl

theorem add_token_diameter (s : ℚ) (p : Printable) (w h : ℕ) :
    (p.add_token s w h).diameter =
      some (p.diameter.getD (if w > h then (w : ℚ) else (h : ℚ))) := by
  unfold add_token
  dsimp only
  split <;> split <;> (try rfl) <;> split <;> (try rfl) <;> rw [save_page_diameter]

theorem addTokens_diameter (s : ℚ) (p : Printable) (ts : List (ℕ × ℕ)) (d : ℚ)
    (hd : p.diameter = some d) : (p.addTokens s ts).diameter = some d := by
  induction ts generalizing p with
  | nil => exact hd
  | cons t ts ih =>
      simp only [addTokens, List.foldl]
      exact ih _ (by rw [add_token_diameter, hd]; rfl)

end Printable

/-! ### Text tools (helpers/text_tools.py)

The wand `Drawing`/`get_font_metrics` capability is abstracted as a function
from the current font size and a string to the measured
`(text_width, text_height)`, exactly the two fields the source reads.  The
two unbounded `while` loops of the source are given explicit fuel and return
`none` when the fuel runs out (the source would still be looping). -/

/-- Glyph metrics capability: font size and text to (text_width, text_height). -/
abbrev Metrics := ℚ → String → ℚ × ℚ

/-- Helper for `splitSpace`: accumulates the current word (reversed). -/
def splitSpaceAux : List Char → List Char → List String
  | [], cur => [⟨cur.reverse⟩]
  | c :: cs, cur =>
      if c = ' ' then ⟨cur.reverse⟩ :: splitSpaceAux cs [] else splitSpaceAux cs (c :: cur)

/-- Python `s.split(" ")`: split on every single space, keeping empty
pieces; the empty string yields `[""]`. -/
def splitSpace (s : String) : List String := splitSpaceAux s.toList []

/-- Python `" ".join(parts)`. -/
def joinSpace : List String → String
  | [] => ""
  | [s] => s
  | s :: rest => s ++ " " ++ joinSpace rest

/-- `" ".join(line_text.split(" ")[:-1])`: drop the last whitespace-delimited
word (text_tools.py line 44). -/
def dropLastWord (s : String) : String := joinSpace (splitSpace s).dropLast

/-- The inner `while metrics.text_width > target_width` loop of
`fit_ability_text` (lines 43-46): drop the last word until the measured
width fits the target. -/
def stripLoop (m : Metrics) (fs target : ℚ) : ℕ → String → Option String
  | 0, line_text =>
      if (m fs line_text).1 > target then none else some line_text
  | fuel + 1, line_text =>
      if (m fs line_text).1 > target then stripLoop m fs target fuel (dropLastWord line_text)
      else some line_text

/-- The `while len(text) > 0` loop of `fit_ability_text` (lines 41-54).
State: remaining text, current target width, largest line width so far,
accumulated height, lines so far.  Returns (lines, largest_line_width,
max_height). -/
def consumeLoop (m : Metrics) (fs step : ℚ) :
    ℕ → String → ℚ → ℚ → ℚ → List String → Option (List String × ℚ × ℚ)
  | 0, text, _, largest, maxh, lines =>
      if text = "" then some (lines, largest, maxh) else none
  | fuel + 1, text, target, largest, maxh, lines =>
      if text = "" then some (lines, largest, maxh)
      else
        match stripLoop m fs target (fuel + 1) text with
        | none => none
        | some line =>
            consumeLoop m fs step fuel (text.drop line.length) (target + step)
              (max largest (m fs line).1) (maxh + (m fs line).2) (lines ++ [line])

/-- The outer `while len(lines) > 4` loop of `fit_ability_text`
(lines 35-54): shrink the font by 10% and redo the whole greedy pass until
at most 4 lines result.  Returns (lines, largest_line_width, max_height,
final font size). -/
def fitLoop (m : Metrics) (step first_line_width : ℚ) (text : String) :
    ℕ → ℚ → Option (List String × ℚ × ℚ × ℚ)
  | 0, _ => none
  | fuel + 1, font_size =>
      let fs := font_size * (9/10)
      match consumeLoop m fs step (fuel + 1) text first_line_width 0 0 [] with
      | none => none
      | some (lines, largest, maxh) =>
          if lines.length > 4 then fitLoop m step first_line_width text fuel fs
          else some (lines, largest, maxh, fs)

/-- The raster returned by a text renderer: its dimensions, the lines drawn
onto it, and the final font size used. -/
structure TextImage where
  width : ℤ
  height : ℤ
  lines : List String
  font_size : ℚ
deriving DecidableEq, Repr

/-- `fit_ability_text(text, font_size, first_line_width, step, components)`
(lines 10-66).  Empty text returns the fresh 1×1 image before any drawing
state is touched.  Otherwise the greedy pass runs starting from
`font_size / 0.9` (each pass first multiplies by 0.9) and the image is
resized to `int(largest_line_width) × int(max_height * 1.2)`. -/
def fit_ability_text (m : Metrics) (text : String)
    (font_size first_line_width step : ℚ) (fuel : ℕ) : Option TextImage :=
  if text = "" then some ⟨1, 1, [], font_size⟩
  else
    match fitLoop m step first_line_width text fuel (font_size / (9/10)) with
    | none => none
    | some (lines, largest, maxh, fs) =>
        some ⟨pyInt largest, pyInt (maxh * (12/10)), lines, fs⟩

/-- The `while True` downsizing loop of `curved_text_to_image`
(lines 104-111): measure, and while `int(width) > 2 * token_diameter * 0.8`
shrink the font size by 10%.  Returns (final font size, int(height),
int(width)). -/
def downsizeLoop (m : Metrics) (td : ℤ) (text : String) : ℕ → ℚ → Option (ℚ × ℤ × ℤ)
  | 0, fs =>
      if (pyInt (m fs text).1 : ℚ) > 2 * (td : ℚ) * (8/10) then none
      else some (fs, pyInt (m fs text).2, pyInt (m fs text).1)
  | fuel + 1, fs =>
      if (pyInt (m fs text).1 : ℚ) > 2 * (td : ℚ) * (8/10) then
        downsizeLoop m td text fuel (fs * (9/10))
      else some (fs, pyInt (m fs text).2, pyInt (m fs text).1)

/-- `math.degrees`. -/
noncomputable def degrees (x : ℝ) : ℝ := x * 180 / Real.pi

/-- The curvature angle computation of `curved_text_to_image`
(lines 119-126): treat the measured width as a chord of a circle of
diameter `td`; if the width exceeds the diameter, subtract the diameter
first and add 180°.
`round(math.degrees(2 * math.asin((width / 2) / (token_diameter / 2)))) + additional_curve`. -/
noncomputable def curveDegree (width td : ℤ) : ℤ :=
  let wa : ℤ × ℤ := if width > td then (width - td, 180) else (width, 0)
  round (degrees (2 * Real.arcsin (((wa.1 : ℝ) / 2) / ((td : ℝ) / 2)))) + wa.2

/-- The raster produced by `curved_text_to_image` before the arc
distortion (the wand `rotate`/`distort` calls at lines 128-129 alter the
pixel buffer, not the data this development reasons about): its flat
dimensions, the final font size, and the computed curvature angle. -/
structure CurvedImage where
  width : ℤ
  height : ℤ
  font_size : ℚ
  curve_degree : ℤ

/-- `curved_text_to_image(text, token_type, token_diameter, components)`
(lines 69-130).  Empty text returns the fresh 1×1 image immediately.
Otherwise the diameter is shrunk by 10% through `int()`, the font size and
casing are chosen by `token_type`, the downsizing loop runs, the image is
resized to `width × int(height * 1.2)` and the curvature angle is
computed. -/
noncomputable def curved_text_to_image (m : Metrics) (text token_type : String)
    (token_diameter : ℚ) (fuel : ℕ) : Option CurvedImage :=
  if text = "" then some ⟨1, 1, 0, 0⟩
  else
    let td : ℤ := pyInt (token_diameter - token_diameter * (1/10))
    let font_size : ℚ := if token_type = "reminder" then (td : ℚ) * (15/100) else (td : ℚ) * (1/10)
    let drawn : String := if token_type = "reminder" then text else text.toUpper
    match downsizeLoop m td drawn fuel font_size with
    | none => none
    | some (fs, h, w) => some ⟨w, pyInt ((h : ℚ) * (12/10)), fs, curveDegree w td⟩

/-! ### Token creation (helpers/token_creation.py) -/

/-- The `Role` dataclass (helpers/role.py); only the fields
`create_role_token` reads are given non-optional types. -/
structure Role where
  name : String
  ability : String := ""
  type : Option String := none
  icon : Option String := none
  first_night : Bool := false
  other_nights : Bool := false
  reminders : List String := []
  affects_setup : Bool := false
  home_script : Option String := none
deriving DecidableEq, Repr

/-- One `token.composite(...)` call performed by `create_role_token`,
identified by the asset composited. -/
inductive CompositeOp where
  | leaf (index : ℕ)
  | icon
  | left_leaf
  | right_leaf
  | setup_flower
  | ability_text
  | role_name
deriving DecidableEq, Repr

/-- The slice of `TokenComponents` that `create_role_token` reads: the
role background dimensions and how many leaf assets the package holds. -/
structure TokenComponents where
  role_bg_width : ℕ
  role_bg_height : ℕ
  leaves_count : ℕ
deriving DecidableEq, Repr

/-- `create_role_token(token_icon, role, components, diameter)`
(lines 38-92), abstracted to the sequence of composite operations applied
to the role background, in source order: one leaf per reminder capped by
the available leaf assets (`components.leaves[:len(role.reminders)]`), the
icon, then the left-leaf/right-leaf/setup-flower overlays gated on
`first_night`/`other_nights`/`affects_setup`, then the ability text and the
curved role name.  The two text renderers are invoked with the geometry the
source derives from the background; if either loops forever (fuel runs
out), nothing is returned.  `mA` and `mN` are the metrics of the ability
and role-name fonts. -/
noncomputable def create_role_token (mA mN : Metrics) (fuel : ℕ)
    (comps : TokenComponents) (role : Role) : Option (List CompositeOp) :=
  let leafOps := (List.range (min role.reminders.length comps.leaves_count)).map CompositeOp.leaf
  let modOps :=
    (if role.first_night then [CompositeOp.left_leaf] else []) ++
    (if role.other_nights then [CompositeOp.right_leaf] else []) ++
    (if role.affects_setup then [CompositeOp.setup_flower] else [])
  match fit_ability_text mA role.ability
      ((pyInt ((comps.role_bg_height : ℚ) * (55/1000)) : ℤ) : ℚ)
      ((pyInt ((comps.role_bg_width : ℚ) * (52/100)) : ℤ) : ℚ)
      ((pyInt ((comps.role_bg_width : ℚ) * (1/10)) : ℤ) : ℚ) fuel with
  | none => none
  | some _ =>
      match curved_text_to_image mN role.name "role" (comps.role_bg_width : ℚ) fuel with
      | none => none
      | some _ =>
          some (leafOps ++ [CompositeOp.icon] ++ modOps ++
            [CompositeOp.ability_text, CompositeOp.role_name])

/-- `⌊128/2⌋` as it appears when the established diameter is 128. -/
theorem floor_128_half : (⌊(128 : ℚ) / 2⌋ : ℤ) = 64 := by
  norm_num [Int.floor_eq_iff]

namespace Printable

/-- On a 256×256 page with diameter 128 and padding 0, a token added at the
origin of a fresh row-0 page is placed at (0,0) and the cursor moves to
x = 128 without wrapping. -/
theorem add_cycle_step1 (s : ℚ) (dia : Option ℚ) (hd : dia = none ∨ dia = some 128)
    (pgs : List (List Placement)) (pn : ℕ) :
    Printable.add_token s ⟨256, 256, 0, dia, 0, 0, false, pgs, [], pn⟩ 128 128 =
      ⟨256, 256, 0, some 128, 128, 0, false, pgs, [(0, 0, 128, 128)], pn⟩ := by
  rcases hd with hd | hd <;> subst hd <;> norm_num [Printable.add_token, pyInt]

/-- The second token of a row is placed at (128,0); the row is then full, so
the cursor wraps to the inset second row at x = 64, y = 64·√3 (which still
fits vertically since √3 < 2). -/
theorem add_cycle_step2 (s : ℚ) (h2 : s < 2)
    (pgs : List (List Placement)) (cp : List Placement) (pn : ℕ) :
    Printable.add_token s ⟨256, 256, 0, some 128, 128, 0, false, pgs, cp, pn⟩ 128 128 =
      ⟨256, 256, 0, some 128, 64, 64 * s, true, pgs, cp ++ [(128, 0, 128, 128)], pn⟩ := by
  unfold add_token
  dsimp only
  norm_num [pyInt, floor_128_half]
  intro h
  exfalso; linarith

/-- The third token is placed at (64, ⌊64·√3⌋) on the inset row; the row is
then full and the next row would start at y = 128·√3, which (since √3 > 1)
no longer fits, so the page is committed and a fresh page is started. -/
theorem add_cycle_step3 (s : ℚ) (h1 : 1 < s) (h2 : s < 2)
    (pgs : List (List Placement)) (cp : List Placement) (pn : ℕ) :
    Printable.add_token s ⟨256, 256, 0, some 128, 64, 64 * s, true, pgs, cp, pn⟩ 128 128 =
      ⟨256, 256, 0, some 128, 0, 0, false,
        pgs ++ [cp ++ [(64, ⌊64 * s⌋, 128, 128)]], [], pn + 1⟩ := by
  have hy0 : ¬((64 : ℚ) * s < 0) := by linarith
  unfold add_token save_page
  dsimp only
  norm_num [pyInt, floor_128_half, hy0]
  split_ifs with h h3
  · exfalso; linarith
  · norm_num
  · exfalso; linarith

/-- Three 128×128 tokens exactly fill (and commit) one 256×256 page: two in
row 0 at x = 0 and x = 128 and one in the inset row at x = 64. -/
theorem addTokens_cycle128 (s : ℚ) (h1 : 1 < s) (h2 : s < 2)
    (dia : Option ℚ) (hd : dia = none ∨ dia = some 128)
    (pgs : List (List Placement)) (pn : ℕ) :
    Printable.addTokens s ⟨256, 256, 0, dia, 0, 0, false, pgs, [], pn⟩
        [(128, 128), (128, 128), (128, 128)] =
      ⟨256, 256, 0, some 128, 0, 0, false,
        pgs ++ [[(0, 0, 128, 128), (128, 0, 128, 128), (64, ⌊64 * s⌋, 128, 128)]], [], pn + 1⟩ := by
  simp only [Printable.addTokens, List.foldl]
  rw [add_cycle_step1 s dia hd, add_cycle_step2 s h2, add_cycle_step3 s h1 h2]
  rfl

end Printable

/-- C1 (counterexample): at the double-precision value of `math.sqrt(3)`
(1.7320508075688772), adding 9 tokens of size 128×128 with padding 0 to a
`Printable` with page 256×256 and writing yields 3 committed pages of 3
tokens each — not the 2 pages with 8 tokens on the first page that the
claim states. -/
theorem packing_scenario_9_tokens_counterexample :
    (((Printable.init 256 256 0 none).addTokens (1.7320508075688772 : ℚ)
        (List.replicate 9 (128, 128))).write.1.pages.map List.length = [3, 3, 3]) ∧
    ¬(((Printable.init 256 256 0 none).addTokens (1.7320508075688772 : ℚ)
        (List.replicate 9 (128, 128))).write.1.pages.length = 2) := by
  constructor <;>
    norm_num [Printable.addTokens, Printable.add_token, Printable.init, Printable.write,
      Printable.save_page, pyInt, List.replicate, floor_128_half]

/-- C1 (amended): for every value `s` of `math.sqrt(3)` with 1 < s < 2 (the
true √3 and its double both qualify), adding 9 tokens of diameter 128 with
padding 0 on a 256×256 page commits exactly 3 pages of 3 tokens each — rows
hold 2 then 1 (inset) tokens at x-coordinates 0, 128 and 64 — and `write`
produces a document. -/
theorem packing_scenario_9_tokens_three_pages (s : ℚ) (h1 : 1 < s) (h2 : s < 2) :
    (((Printable.init 256 256 0 none).addTokens s (List.replicate 9 (128, 128))).write.1.pages.map
        List.length = [3, 3, 3]) ∧
    (((Printable.init 256 256 0 none).addTokens s (List.replicate 9 (128, 128))).write.1.pages.map
        (fun pg => pg.map (fun t => t.1)) = [[0, 128, 64], [0, 128, 64], [0, 128, 64]]) ∧
    ((Printable.init 256 256 0 none).addTokens s (List.replicate 9 (128, 128))).write.2 ≠ none := by
  have hrep : List.replicate 9 ((128 : ℕ), (128 : ℕ)) =
      [(128, 128), (128, 128), (128, 128)] ++ [(128, 128), (128, 128), (128, 128)] ++
        [(128, 128), (128, 128), (128, 128)] := rfl
  have hinit : Printable.init 256 256 0 none = ⟨256, 256, 0, none, 0, 0, false, [], [], 1⟩ := rfl
  rw [hrep, hinit, Printable.addTokens_append, Printable.addTokens_append,
      Printable.addTokens_cycle128 s h1 h2 none (Or.inl rfl),
      Printable.addTokens_cycle128 s h1 h2 (some 128) (Or.inr rfl),
      Printable.addTokens_cycle128 s h1 h2 (some 128) (Or.inr rfl)]
  norm_num [Printable.write]
  exact ⟨by simp, by simp⟩

/-- C1 (witness): the amended packing scenario at the concrete value
s = 7/4. -/
theorem packing_scenario_9_tokens_three_pages_witness :
    (((Printable.init 256 256 0 none).addTokens (7/4) (List.replicate 9 (128, 128))).write.1.pages.map
        List.length = [3, 3, 3]) ∧
    (((Printable.init 256 256 0 none).addTokens (7/4) (List.replicate 9 (128, 128))).write.1.pages.map
        (fun pg => pg.map (fun t => t.1)) = [[0, 128, 64], [0, 128, 64], [0, 128, 64]]) ∧
    ((Printable.init 256 256 0 none).addTokens (7/4) (List.replicate 9 (128, 128))).write.2 ≠ none :=
  packing_scenario_9_tokens_three_pages (7/4) (by norm_num) (by norm_num)

/-- C2 (code evaluation at the failing input): with an established diameter
of 100, a 200×200 token is composited onto the page at its original
200×200 size — not downscaled to 100×100 first — because in the source the
`composite` call precedes the `resize` and the resized handle is discarded. -/
theorem oversized_token_composited_at_original_size :
    ((Printable.init 2402 3152 0 (some 100)).add_token (7/4) 200 200).current_page =
        [(0, 0, 200, 200)] ∧
    ((Printable.init 2402 3152 0 (some 100)).add_token (7/4) 200 200).current_page ≠
        [(0, 0, 100, 100)] := by
  constructor <;> norm_num [Printable.init, Printable.add_token, pyInt]

/-- C6: if the current page has received no token (cursor at the origin),
`write()` commits no page — a wholly blank trailing page is never persisted
— and produces a file iff some page was committed; in particular a freshly
constructed `Printable` writes nothing. -/
theorem blank_page_never_persisted (pw ph pad : ℚ) (dia : Option ℚ) (p : Printable)
    (hx : p.current_x = 0) (hy : p.current_y = 0) :
    p.write.1.pages = p.pages ∧ (p.write.2 = none ↔ p.pages = []) ∧
    (Printable.init pw ph pad dia).write.1.pages = [] ∧
    (Printable.init pw ph pad dia).write.2 = none := by
  have hq : p.write = (p, if p.pages = [] then none else some p.pages) := by
    unfold Printable.write
    dsimp only
    rw [if_neg]
    push_neg
    exact ⟨hx, hy⟩
  refine ⟨by rw [hq], ?_, ?_, ?_⟩
  · rw [hq]; dsimp only; split_ifs with h <;> simp [h]
  · norm_num [Printable.init, Printable.write]
  · norm_num [Printable.init, Printable.write]

/-- C6 (witness): a freshly constructed `Printable` has its cursor at the
origin, commits nothing and writes no file. -/
theorem blank_page_never_persisted_witness :
    (Printable.init 2402 3152 0 none).write.1.pages = (Printable.init 2402 3152 0 none).pages ∧
    ((Printable.init 2402 3152 0 none).write.2 = none ↔ (Printable.init 2402 3152 0 none).pages = []) ∧
    (Printable.init 100 100 5 (some 30)).write.1.pages = [] ∧
    (Printable.init 100 100 5 (some 30)).write.2 = none :=
  blank_page_never_persisted 100 100 5 (some 30) (Printable.init 2402 3152 0 none) rfl rfl

/-- C7: on a `Printable` constructed without a fixed diameter, the first
`add_token` establishes the diameter as the larger of the token's width and
height; it is then positive and unchanged by any sequence of further
`add_token` calls. -/
theorem diameter_established_once_and_frozen (s : ℚ) (p : Printable) (w h : ℕ)
    (ts : List (ℕ × ℕ)) (hd : p.diameter = none) (hpos : 0 < w ∨ 0 < h) :
    (p.add_token s w h).diameter = some (if w > h then (w : ℚ) else (h : ℚ)) ∧
    (0 : ℚ) < (if w > h then (w : ℚ) else (h : ℚ)) ∧
    ((p.add_token s w h).addTokens s ts).diameter =
      some (if w > h then (w : ℚ) else (h : ℚ)) := by
  have h1 : (p.add_token s w h).diameter = some (if w > h then (w : ℚ) else (h : ℚ)) := by
    rw [Printable.add_token_diameter, hd]
    rfl
  have hpos2 : (0 : ℚ) < (if w > h then (w : ℚ) else (h : ℚ)) := by
    split_ifs with hgt
    · exact_mod_cast Nat.lt_of_le_of_lt (Nat.zero_le h) hgt
    · rcases hpos with hw | hh
      · exact_mod_cast Nat.lt_of_lt_of_le hw (Nat.le_of_not_lt hgt)
      · exact_mod_cast hh
  exact ⟨h1, hpos2, Printable.addTokens_diameter s _ ts _ h1⟩

/-- Constant glyph metrics: every string measures 0 wide and 10 tall. -/
def flatMetrics : Metrics := fun _ _ => (0, 10)

/-- If the stripping loop returns a line, that line measures within the
target width. -/
theorem stripLoop_fits (m : Metrics) (fs target : ℚ) :
    ∀ (fuel : ℕ) (s line : String), stripLoop m fs target fuel s = some line →
      (m fs line).1 ≤ target := by
  intro fuel
  induction fuel with
  | zero =>
      intro s line h
      unfold stripLoop at h
      split_ifs at h with hw
      cases h
      exact le_of_not_lt hw
  | succ n ih =>
      intro s line h
      unfold stripLoop at h
      split_ifs at h with hw
      · exact ih _ _ h
      · cases h
        exact le_of_not_lt hw

/-- The consume loop only ever appends to its accumulator: positions already
filled keep their lines. -/
theorem consumeLoop_acc (m : Metrics) (fs step : ℚ) :
    ∀ (fuel : ℕ) (text : String) (target largest maxh : ℚ) (acc : List String)
      (out : List String × ℚ × ℚ),
      consumeLoop m fs step fuel text target largest maxh acc = some out →
      acc.length ≤ out.1.length ∧
        ∀ i, i < acc.length → out.1.getD i "" = acc.getD i "" := by
  intro fuel
  induction fuel with
  | zero =>
      intro text target largest maxh acc out h
      unfold consumeLoop at h
      split_ifs at h
      cases h
      exact ⟨le_rfl, fun i _ => rfl⟩
  | succ n ih =>
      intro text target largest maxh acc out h
      unfold consumeLoop at h
      split_ifs at h with hte
      · cases h
        exact ⟨le_rfl, fun i _ => rfl⟩
      · rcases hs : stripLoop m fs target (n + 1) text with _ | line <;> rw [hs] at h
        · cases h
        · obtain ⟨h1, h2⟩ := ih _ _ _ _ _ _ h
          refine ⟨le_trans ?_ h1, fun i hi => ?_⟩
          · simp
          · rw [h2 i (by simp; omega), List.getD_append _ _ _ _ hi]

/-- Every line the consume loop adds beyond its accumulator fits the target
width of its position (the target starts at `target` and grows by `step`
per line). -/
theorem consumeLoop_fits (m : Metrics) (fs step : ℚ) :
    ∀ (fuel : ℕ) (text : String) (target largest maxh : ℚ) (acc : List String)
      (out : List String × ℚ × ℚ),
      consumeLoop m fs step fuel text target largest maxh acc = some out →
      ∀ i, acc.length ≤ i → i < out.1.length →
        (m fs (out.1.getD i "")).1 ≤ target + ((i : ℚ) - (acc.length : ℚ)) * step := by
  intro fuel
  induction fuel with
  | zero =>
      intro text target largest maxh acc out h i hge hlt
      unfold consumeLoop at h
      split_ifs at h
      cases h
      exact absurd hlt (by dsimp only; omega)
  | succ n ih =>
      intro text target largest maxh acc out h i hge hlt
      unfold consumeLoop at h
      split_ifs at h with hte
      · cases h
        exact absurd hlt (by dsimp only; omega)
      · rcases hs : stripLoop m fs target (n + 1) text with _ | line <;> rw [hs] at h
        · cases h
        · rcases eq_or_lt_of_le hge with heq | hlt2
          · obtain ⟨_, hacc⟩ := consumeLoop_acc m fs step _ _ _ _ _ _ _ h
            have hi2 : i < (acc ++ [line]).length := by simp; omega
            have : out.1.getD i "" = line := by
              rw [hacc i hi2, ← heq]
              simp
            rw [this]
            have := stripLoop_fits m fs target _ _ _ hs
            have harith : target + ((i : ℚ) - (acc.length : ℚ)) * step = target := by
              rw [← heq]; ring
            linarith
          · have := ih _ _ _ _ _ _ h i (by simp; omega) hlt
            have hlen : (((acc ++ [line]).length : ℕ) : ℚ) = (acc.length : ℚ) + 1 := by
              push_cast [List.length_append, List.length_singleton]
              ring
            rw [hlen] at this
            have harith : target + step + ((i : ℚ) - ((acc.length : ℚ) + 1)) * step =
                target + ((i : ℚ) - (acc.length : ℚ)) * step := by ring
            linarith [harith ▸ this]

/-- The font-shrink loop only returns passes with at most 4 lines. -/
theorem fitLoop_line_bound (m : Metrics) (step flw : ℚ) (text : String) :
    ∀ (fuel : ℕ) (fs : ℚ) (r : List String × ℚ × ℚ × ℚ),
      fitLoop m step flw text fuel fs = some r → r.1.length ≤ 4 := by
  intro fuel
  induction fuel with
  | zero => intro fs r h; exact absurd h (by simp [fitLoop])
  | succ n ih =>
      intro fs r h
      rw [fitLoop] at h
      rcases hc : consumeLoop m (fs * (9/10)) step (n + 1) text flw 0 0 [] with _ | ⟨lines, largest, maxh⟩ <;>
        rw [hc] at h
      · cases h
      · dsimp at h
        split_ifs at h with hlen
        · exact ih _ _ h
        · cases h
          exact Nat.le_of_not_lt hlen

/-- Every line returned by the font-shrink loop fits the target width of
its position at the final font size. -/
theorem fitLoop_fits (m : Metrics) (step flw : ℚ) (text : String) :
    ∀ (fuel : ℕ) (fs : ℚ) (r : List String × ℚ × ℚ × ℚ),
      fitLoop m step flw text fuel fs = some r →
      ∀ i, i < r.1.length → (m r.2.2.2 (r.1.getD i "")).1 ≤ flw + (i : ℚ) * step := by
  intro fuel
  induction fuel with
  | zero => intro fs r h; exact absurd h (by simp [fitLoop])
  | succ n ih =>
      intro fs r h
      rw [fitLoop] at h
      rcases hc : consumeLoop m (fs * (9/10)) step (n + 1) text flw 0 0 [] with _ | ⟨lines, largest, maxh⟩ <;>
        rw [hc] at h
      · cases h
      · dsimp at h
        split_ifs at h with hlen
        · exact ih _ _ h
        · cases h
          intro i hi
          have := consumeLoop_fits m (fs * (9/10)) step _ _ _ _ _ _ _ hc i (by simp) hi
          simpa using this

/-- C8: empty text given to either renderer yields the fresh 1×1 raster,
for every font size, width, step, diameter and token type. -/
theorem empty_text_renders_1x1 (m : Metrics)
    (font_size first_line_width step token_diameter : ℚ)
    (token_type : String) (fuel : ℕ) :
    fit_ability_text m "" font_size first_line_width step fuel =
        some ⟨1, 1, [], font_size⟩ ∧
    curved_text_to_image m "" token_type token_diameter fuel = some ⟨1, 1, 0, 0⟩ :=
  ⟨rfl, rfl⟩

/-- C5: whenever `fit_ability_text` returns, the drawn text block has at
most 4 lines. -/
theorem text_fitter_line_bound (m : Metrics) (text : String)
    (font_size first_line_width step : ℚ) (fuel : ℕ) (r : TextImage)
    (h : fit_ability_text m text font_size first_line_width step fuel = some r) :
    r.lines.length ≤ 4 := by
  unfold fit_ability_text at h
  split_ifs at h with he
  · cases h
    simp
  · rcases hf : fitLoop m step first_line_width text fuel (font_size / (9/10)) with
      _ | ⟨lines, largest, maxh, fs⟩ <;> rw [hf] at h
    · cases h
    · cases h
      exact fitLoop_line_bound m step first_line_width text fuel _ _ hf

/-- C5 (witness): a concrete run with constant metrics returns one line. -/
theorem text_fitter_line_bound_witness :
    (⟨0, 12, ["hi"], 12⟩ : TextImage).lines.length ≤ 4 :=
  text_fitter_line_bound flatMetrics "hi" 12 100 10 3 ⟨0, 12, ["hi"], 12⟩ (by
    have hd2 : ("hi" : String).drop ("hi" : String).length = "" := rfl
    have hne : (("hi" : String) = "") = False := by simp
    norm_num [fit_ability_text, fitLoop, consumeLoop, stripLoop, flatMetrics, pyInt, hd2, hne,
      Int.floor_eq_iff])

/-- Glyph metrics for the oversized-word scenario: the word "bb" measures
60 wide, the full text "bb c" measures 120 wide, everything else 0; all
heights are 10. -/
def wordMetrics : Metrics := fun _ s =>
  (if s = "bb c" then 120 else if s = "bb" then 60 else 0, 10)

set_option maxHeartbeats 1000000 in
/-- C3 (counterexample): with `first_line_width = 50` the first word "bb"
of "bb c" measures 60 > 50, yet the returned block's lines are
`["", "bb c"]`: the oversized word is dropped to an empty first line and
only emitted merged with the following word once the target grew to 150 —
it is never placed verbatim as its own overflowing line. -/
theorem oversized_word_not_placed_counterexample :
    (wordMetrics 10 "bb").1 > 50 ∧
    fit_ability_text wordMetrics "bb c" 10 50 100 3 = some ⟨120, 24, ["", "bb c"], 10⟩ ∧
    "bb" ∉ (["", "bb c"] : List String) := by
  have h1 : dropLastWord "bb c" = "bb" := rfl
  have h2 : dropLastWord "bb" = "" := rfl
  have h3 : ("bb c" : String).drop 0 = "bb c" := rfl
  have h4 : ("bb c" : String).drop 4 = "" := rfl
  have h5 : ("bb c" : String).length = 4 := rfl
  have hne1 : (("bb c" : String) = "") = False := by simp
  have hne2 : (("bb c" : String) = "bb") = False := by simp
  have hne3 : (("" : String) = "bb c") = False := by simp
  have hne4 : (("" : String) = "bb") = False := by simp
  have hne5 : (("bb" : String) = "bb c") = False := by simp
  refine ⟨by norm_num [wordMetrics, hne5], ?_, by simp⟩
  norm_num [fit_ability_text, fitLoop, consumeLoop, stripLoop, wordMetrics,
    h1, h2, h3, h4, h5, hne1, hne2, hne3, hne4, hne5, pyInt, Int.floor_eq_iff]

/-- C3 (amended): `fit_ability_text` never emits an overflowing line: at
the font size it returns, line `i` of the block measures at most
`first_line_width + i * step` — an oversized word is stripped from its
line (leaving a shorter or empty line) rather than placed overflowing. -/
theorem fitted_lines_never_overflow (m : Metrics) (text : String)
    (font_size first_line_width step : ℚ) (fuel : ℕ) (r : TextImage)
    (h : fit_ability_text m text font_size first_line_width step fuel = some r) :
    ∀ i, i < r.lines.length →
      (m r.font_size (r.lines.getD i "")).1 ≤ first_line_width + (i : ℚ) * step := by
  unfold fit_ability_text at h
  split_ifs at h with he
  · cases h
    intro i hi
    exact absurd hi (by simp)
  · rcases hf : fitLoop m step first_line_width text fuel (font_size / (9/10)) with
      _ | ⟨lines, largest, maxh, fs⟩ <;> rw [hf] at h
    · cases h
    · cases h
      exact fitLoop_fits m step first_line_width text fuel _ _ hf

/-- C3 (witness): the no-overflow bound applied to a concrete run. -/
theorem fitted_lines_never_overflow_witness :
    (flatMetrics ((⟨0, 12, ["hi"], 12⟩ : TextImage).font_size)
        ((⟨0, 12, ["hi"], 12⟩ : TextImage).lines.getD 0 "")).1 ≤ 100 + ((0 : ℕ) : ℚ) * 10 :=
  fitted_lines_never_overflow flatMetrics "hi" 12 100 10 3 ⟨0, 12, ["hi"], 12⟩ (by
    have hd2 : ("hi" : String).drop ("hi" : String).length = "" := rfl
    have hne : (("hi" : String) = "") = False := by simp
    norm_num [fit_ability_text, fitLoop, consumeLoop, stripLoop, flatMetrics, pyInt, hd2, hne,
      Int.floor_eq_iff]) 0 (by norm_num)

/-- Constant glyph metrics measuring every string as 90 wide, 10 tall. -/
def chordMetrics : Metrics := fun _ _ => (90, 10)

/-- `math.degrees(pi) = 180`. -/
theorem degrees_pi : degrees Real.pi = 180 := by
  unfold degrees
  field_simp

/-- When the downsizing loop returns, the final measured width satisfies the
loop's exit condition and is the `int()` of the final measurement. -/
theorem downsizeLoop_exit (m : Metrics) (td : ℤ) (text : String) :
    ∀ (fuel : ℕ) (fs0 fs : ℚ) (hh w : ℤ),
      downsizeLoop m td text fuel fs0 = some (fs, hh, w) →
      ¬((w : ℚ) > 2 * (td : ℚ) * (8/10)) ∧ w = pyInt (m fs text).1 := by
  intro fuel
  induction fuel with
  | zero =>
      intro fs0 fs hh w h
      unfold downsizeLoop at h
      split_ifs at h with hw
      cases h
      exact ⟨hw, rfl⟩
  | succ n ih =>
      intro fs0 fs hh w h
      unfold downsizeLoop at h
      split_ifs at h with hw
      · exact ih _ _ _ _ h
      · cases h
        exact ⟨hw, rfl⟩

/-- C10: when the downsizing loop of `curved_text_to_image` finishes (with
nonnegative measured widths and a positive effective diameter
`td = int(token_diameter - token_diameter*0.1)`), the measured width is at
most 1.6 × the effective diameter, and the argument passed to `asin` after
the conditional diameter subtraction lies in [0, 1]. -/
theorem downsize_keeps_asin_domain (m : Metrics) (d : ℚ) (text : String) (fuel : ℕ)
    (fs0 fs : ℚ) (hh w td : ℤ)
    (hm : ∀ f s, 0 ≤ (m f s).1)
    (htdv : td = pyInt (d - d * (1/10))) (htd : 0 < td)
    (h : downsizeLoop m td text fuel fs0 = some (fs, hh, w)) :
    (w : ℚ) ≤ (8/5) * (td : ℚ) ∧
    (0 : ℚ) ≤ ((((if td < w then w - td else w) : ℤ) : ℚ) / 2) / ((td : ℚ) / 2) ∧
    ((((if td < w then w - td else w) : ℤ) : ℚ) / 2) / ((td : ℚ) / 2) ≤ 1 := by
  obtain ⟨hle, hwv⟩ := downsizeLoop_exit m td text fuel fs0 fs hh w h
  have hw0 : (0 : ℤ) ≤ w := by
    rw [hwv]
    unfold pyInt
    rw [if_neg (not_lt.2 (hm fs text))]
    exact Int.floor_nonneg.2 (hm fs text)
  push_neg at hle
  have hle2 : (w : ℚ) ≤ (8/5) * (td : ℚ) := by linarith
  have htdq : (0 : ℚ) < (td : ℚ) := by exact_mod_cast htd
  have htd2 : (0 : ℚ) < (td : ℚ) / 2 := by linarith
  have key : ∀ a : ℚ, 0 ≤ a → a ≤ (td : ℚ) →
      (0 : ℚ) ≤ (a / 2) / ((td : ℚ) / 2) ∧ (a / 2) / ((td : ℚ) / 2) ≤ 1 := by
    intro a h0 h1
    constructor
    · exact div_nonneg (by linarith) (le_of_lt htd2)
    · rw [div_le_one htd2]
      linarith
  refine ⟨hle2, ?_, ?_⟩ <;> split_ifs with hlt <;> push_cast
  · exact (key ((w : ℚ) - (td : ℚ)) (by exact_mod_cast sub_nonneg.2 (le_of_lt hlt))
      (by linarith)).1
  · exact (key (w : ℚ) (by exact_mod_cast hw0) (by exact_mod_cast not_lt.1 hlt)).1
  · exact (key ((w : ℚ) - (td : ℚ)) (by exact_mod_cast sub_nonneg.2 (le_of_lt hlt))
      (by linarith)).2
  · exact (key (w : ℚ) (by exact_mod_cast hw0) (by exact_mod_cast not_lt.1 hlt)).2

/-- C10 (witness): a concrete run of the downsizing loop at effective
diameter 90 with constant width 90. -/
theorem downsize_keeps_asin_domain_witness :
    ((90 : ℤ) : ℚ) ≤ (8/5) * (((90 : ℤ)) : ℚ) ∧
    (0 : ℚ) ≤ ((((if (90 : ℤ) < (90 : ℤ) then (90 : ℤ) - (90 : ℤ) else (90 : ℤ)) : ℤ) : ℚ) / 2) /
        (((90 : ℤ) : ℚ) / 2) ∧
    ((((if (90 : ℤ) < (90 : ℤ) then (90 : ℤ) - (90 : ℤ) else (90 : ℤ)) : ℤ) : ℚ) / 2) /
        (((90 : ℤ) : ℚ) / 2) ≤ 1 :=
  downsize_keeps_asin_domain chordMetrics 100 "Hi" 2 (27/2) (27/2) 10 90 90
    (fun _ _ => by norm_num [chordMetrics])
    (by norm_num [pyInt, Int.floor_eq_iff]) (by norm_num)
    (by norm_num [downsizeLoop, chordMetrics, pyInt, Int.floor_eq_iff])

/-- C4: the curvature angle computed by `curved_text_to_image` on non-empty
text with positive effective diameter td equals
`round(degrees(2*asin((chord/2)/(td/2))))` when the measured chord is at
most td, and `round(degrees(2*asin(((chord-td)/2)/(td/2)))) + 180` when it
exceeds td; chord = td gives exactly 180° and chord = 0 gives 0°. -/
theorem curvature_formula (m : Metrics) (text token_type : String) (d : ℚ) (fuel : ℕ)
    (r : CurvedImage) (td : ℤ) (hne : text ≠ "")
    (htdv : td = pyInt (d - d * (1/10))) (htd : 0 < td)
    (h : curved_text_to_image m text token_type d fuel = some r) :
    (r.width ≤ td → r.curve_degree =
        round (degrees (2 * Real.arcsin (((r.width : ℝ) / 2) / ((td : ℝ) / 2))))) ∧
    (td < r.width → r.curve_degree =
        round (degrees (2 * Real.arcsin ((((r.width : ℝ) - (td : ℝ)) / 2) /
          ((td : ℝ) / 2)))) + 180) ∧
    (r.width = td → r.curve_degree = 180) ∧
    (r.width = 0 → r.curve_degree = 0) := by
  unfold curved_text_to_image at h
  rw [if_neg hne, ← htdv] at h
  dsimp only at h
  rcases hD : downsizeLoop m td (if token_type = "reminder" then text else text.toUpper) fuel
      (if token_type = "reminder" then (td : ℚ) * (15/100) else (td : ℚ) * (1/10)) with
    _ | ⟨fs, hh, w⟩ <;> rw [hD] at h
  · cases h
  · cases h
    have htdR : (0 : ℝ) < (td : ℝ) := by exact_mod_cast htd
    refine ⟨?_, ?_, ?_, ?_⟩
    · intro hle
      dsimp only at hle ⊢
      unfold curveDegree
      rw [if_neg (not_lt.2 hle)]
      simp
    · intro hgt
      dsimp only at hgt ⊢
      unfold curveDegree
      rw [if_pos hgt]
      push_cast
      ring_nf
    · intro heq
      dsimp only at heq ⊢
      unfold curveDegree
      rw [heq, if_neg (lt_irrefl td)]
      dsimp only
      have h1 : ((td : ℝ) / 2) / ((td : ℝ) / 2) = 1 := div_self (by linarith)
      rw [h1, Real.arcsin_one]
      have h2 : 2 * (Real.pi / 2) = Real.pi := by ring
      rw [h2, degrees_pi]
      have h3 : ((180 : ℤ) : ℝ) = (180 : ℝ) := by norm_num
      rw [← h3, round_intCast, add_zero]
    · intro h0
      dsimp only at h0 ⊢
      unfold curveDegree
      rw [h0, if_neg (not_lt.2 (le_of_lt htd))]
      dsimp only
      simp [degrees]

/-- The curved image produced in the C4 witness scenario: flat width 90,
effective diameter 90. -/
noncomputable def chordImage : CurvedImage := ⟨90, 12, 27/2, curveDegree 90 90⟩

/-- C4 (witness): the curvature formula at chord = effective diameter = 90,
where the angle is exactly 180°. -/
theorem curvature_formula_witness :
    (chordImage.width ≤ (90 : ℤ) → chordImage.curve_degree =
        round (degrees (2 * Real.arcsin (((chordImage.width : ℝ) / 2) / (((90 : ℤ) : ℝ) / 2))))) ∧
    ((90 : ℤ) < chordImage.width → chordImage.curve_degree =
        round (degrees (2 * Real.arcsin ((((chordImage.width : ℝ) - ((90 : ℤ) : ℝ)) / 2) /
          (((90 : ℤ) : ℝ) / 2)))) + 180) ∧
    (chordImage.width = (90 : ℤ) → chordImage.curve_degree = 180) ∧
    (chordImage.width = 0 → chordImage.curve_degree = 0) :=
  curvature_formula chordMetrics "Hi" "reminder" 100 2 chordImage 90 (by simp)
    (by norm_num [pyInt, Int.floor_eq_iff]) (by norm_num)
    (by
      have hne : (("Hi" : String) = "") = False := by simp
      norm_num [curved_text_to_image, downsizeLoop, chordMetrics, chordImage, pyInt,
        Int.floor_eq_iff, hne])

/-- C9: composing a role token for a role with two reminders,
`first_night = true`, `other_nights = false`, `affects_setup = false`
overlays exactly `min 2 (number of leaf assets)` leaves plus the left-leaf
asset, and never the right-leaf or setup-flower assets. -/
theorem role_token_overlay_scenario (mA mN : Metrics) (fuel : ℕ) (comps : TokenComponents)
    (nm ab : String) (ops : List CompositeOp)
    (h : create_role_token mA mN fuel comps
        { name := nm, ability := ab, reminders := ["A", "B"],
          first_night := true, other_nights := false, affects_setup := false } = some ops) :
    ops.countP (fun o => match o with | CompositeOp.leaf _ => true | _ => false) =
      min 2 comps.leaves_count ∧
    CompositeOp.left_leaf ∈ ops ∧
    CompositeOp.right_leaf ∉ ops ∧
    CompositeOp.setup_flower ∉ ops := by
  unfold create_role_token at h
  dsimp only at h
  cases hF : fit_ability_text mA ab
      ((pyInt ((comps.role_bg_height : ℚ) * (55/1000)) : ℤ) : ℚ)
      ((pyInt ((comps.role_bg_width : ℚ) * (52/100)) : ℤ) : ℚ)
      ((pyInt ((comps.role_bg_width : ℚ) * (1/10)) : ℤ) : ℚ) fuel with
  | none => rw [hF] at h; cases h
  | some ti =>
      rw [hF] at h
      cases hC : curved_text_to_image mN nm "role" (comps.role_bg_width : ℚ) fuel with
      | none => rw [hC] at h; cases h
      | some ci =>
          rw [hC] at h
          cases h
          refine ⟨?_, by simp, by simp, by simp⟩
          simp only [List.countP_append, List.countP_map, List.countP_cons, List.countP_nil]
          have hall : ∀ n : ℕ, List.countP ((fun o => match o with
              | CompositeOp.leaf _ => true
              | _ => false) ∘ CompositeOp.leaf) (List.range n) = n := by
            intro n
            induction n with
            | zero => simp
            | succ k ih => rw [List.range_succ]; simp [List.countP_append, ih]
          simpa using hall (2 ⊓ comps.leaves_count)

/-- C9 (witness): with 7 leaf assets available and empty name/ability text
(so both renderers return immediately), exactly the leaves 0 and 1, the
icon, the left leaf and the two text images are composited. -/
theorem role_token_overlay_scenario_witness :
    ([CompositeOp.leaf 0, CompositeOp.leaf 1, CompositeOp.icon, CompositeOp.left_leaf,
        CompositeOp.ability_text, CompositeOp.role_name].countP
        (fun o => match o with | CompositeOp.leaf _ => true | _ => false) = min 2 7) ∧
    CompositeOp.left_leaf ∈ [CompositeOp.leaf 0, CompositeOp.leaf 1, CompositeOp.icon,
        CompositeOp.left_leaf, CompositeOp.ability_text, CompositeOp.role_name] ∧
    CompositeOp.right_leaf ∉ [CompositeOp.leaf 0, CompositeOp.leaf 1, CompositeOp.icon,
        CompositeOp.left_leaf, CompositeOp.ability_text, CompositeOp.role_name] ∧
    CompositeOp.setup_flower ∉ [CompositeOp.leaf 0, CompositeOp.leaf 1, CompositeOp.icon,
        CompositeOp.left_leaf, CompositeOp.ability_text, CompositeOp.role_name] :=
  role_token_overlay_scenario flatMetrics flatMetrics 1 ⟨100, 100, 7⟩ "" ""
    [CompositeOp.leaf 0, CompositeOp.leaf 1, CompositeOp.icon, CompositeOp.left_leaf,
      CompositeOp.ability_text, CompositeOp.role_name] rfl

/-- C7 (witness): the diameter inferred from a first 5×3 token is 5, stays
positive and is unchanged by a later 4×4 token. -/
theorem diameter_established_once_and_frozen_witness :
    ((Printable.init 10 10 0 none).add_token (7/4) 5 3).diameter =
      some (if 5 > 3 then ((5 : ℕ) : ℚ) else ((3 : ℕ) : ℚ)) ∧
    (0 : ℚ) < (if 5 > 3 then ((5 : ℕ) : ℚ) else ((3 : ℕ) : ℚ)) ∧
    (((Printable.init 10 10 0 none).add_token (7/4) 5 3).addTokens (7/4) [(4, 4)]).diameter =
      some (if 5 > 3 then ((5 : ℕ) : ℚ) else ((3 : ℕ) : ℚ)) :=
  diameter_established_once_and_frozen (7/4) (Printable.init 10 10 0 none) 5 3 [(4, 4)] rfl
    (Or.inl (by norm_num))

end Botc
